import Mathlib

/-!
Verification of the household-occupancy prediction pipeline
(`src/Prasanth_Household_prediction.ipynb`).

The notebook is a straight-line pandas/sklearn pipeline:
feature aggregation per household (`create_features`), a left join of
homes to features with `fillna(0)`, SMOTE oversampling, an unstratified
`train_test_split`, `StandardScaler` fit on the train split only, a
`RandomizedSearchCV` over an enumerated random-forest grid, and
evaluation.  Pure data transformations are embedded as Lean functions
over `ℕ`/`ℚ`; numpy float division (which yields `inf` on division by
zero rather than raising) is embedded by the small `NpFloat` type.
Library components whose internals are not part of the repository
(SMOTE, the shuffle split, the randomized search) are modelled from
their documented contracts, parameterised over their sources of
randomness.
-/

/-- A row of the `motion` table: `(id, home_id, datetime, location)`.
`datetime` is embedded as seconds since the epoch; `location` as a
numeric identifier. -/
structure MotionEvent where
  id : ℕ
  home_id : ℕ
  datetime : ℕ
  location : ℕ
deriving DecidableEq, Repr

/-- `group['datetime'].dt.hour`: the hour-of-day (0–23) of an event. -/
def hourOfDay (e : MotionEvent) : ℕ :=
  e.datetime / 3600 % 24

/-- `Series.between(6, 12)` — pandas `between` is inclusive on both
endpoints by default. -/
def betweenB (lo hi h : ℕ) : Bool :=
  lo ≤ h && h ≤ hi

/-- The morning test of `create_features`: `hour.between(6, 12)`. -/
def morningB (h : ℕ) : Bool := betweenB 6 12 h

/-- The afternoon test of `create_features`: `hour.between(12, 18)`. -/
def afternoonB (h : ℕ) : Bool := betweenB 12 18 h

/-- The evening test of `create_features`: `hour.between(18, 24)`. -/
def eveningB (h : ℕ) : Bool := betweenB 18 24 h

/-- The night test of `create_features`: `hour.between(0, 6)`. -/
def nightB (h : ℕ) : Bool := betweenB 0 6 h

/-- Numpy double values as far as this pipeline produces them: a finite
rational, signed infinity, or NaN.  Numpy float division by zero does
not raise; it returns `±inf` (or NaN for `0/0`) with a warning. -/
inductive NpFloat where
  | finite (q : ℚ)
  | posInf
  | negInf
  | nan
deriving DecidableEq, Repr

/-- Numpy division of a nonnegative integer count by a float:
`count / 0.0` is `inf` for a positive count and NaN for `0 / 0.0`. -/
def npDivCount (n : ℕ) (q : ℚ) : NpFloat :=
  if q = 0 then (if n = 0 then .nan else .posInf)
  else .finite ((n : ℚ) / q)

/-- The fixed 9-field feature schema produced by `create_features`
(and, all-zero, by the `fillna(0)` path for homes with no events). -/
structure FeatureRow where
  motion_count : ℕ
  time_range_hours : ℚ
  unique_locations : ℕ
  activity_hours : ℕ
  events_per_hour : NpFloat
  morning_activity : ℕ
  afternoon_activity : ℕ
  evening_activity : ℕ
  night_activity : ℕ
deriving DecidableEq, Repr

/-- `(group['datetime'].max() - group['datetime'].min()).total_seconds() / 3600`
as an exact rational, for a (nonempty) event group. -/
def timeRangeHours (group : List MotionEvent) : ℚ :=
  let ds := group.map (·.datetime)
  (((ds.max?.getD 0 - ds.min?.getD 0 : ℕ)) : ℚ) / 3600

/-- The notebook's `create_features`, applied by
`motion_df.groupby('home_id').apply(...)` to one household's (nonempty)
event group.  `motion_count` is the count of non-null `id` values,
i.e. the group length.  Note `events_per_hour` performs the division
`count / time_range_hours` with no special case for a zero range. -/
def create_features (group : List MotionEvent) : FeatureRow :=
  { motion_count := group.length
    time_range_hours := timeRangeHours group
    unique_locations := (group.map (·.location)).dedup.length
    activity_hours := (group.map hourOfDay).dedup.length
    events_per_hour := npDivCount group.length (timeRangeHours group)
    morning_activity := group.countP (fun e => morningB (hourOfDay e))
    afternoon_activity := group.countP (fun e => afternoonB (hourOfDay e))
    evening_activity := group.countP (fun e => eveningB (hourOfDay e))
    night_activity := group.countP (fun e => nightB (hourOfDay e)) }

/-- How many of the four bucket tests an hour-of-day value passes. -/
def bucketMembership (h : ℕ) : ℕ :=
  (if morningB h then 1 else 0) + (if afternoonB h then 1 else 0) +
    (if eveningB h then 1 else 0) + (if nightB h then 1 else 0)

/-- An hour is a bucket boundary when it is exactly 6, 12 or 18. -/
def boundaryHourB (h : ℕ) : Bool :=
  h == 6 || h == 12 || h == 18

theorem hourOfDay_lt_24 (e : MotionEvent) : hourOfDay e < 24 :=
  Nat.mod_lt _ (by norm_num)

theorem bucketMembership_eq (h : ℕ) (hh : h < 24) :
    bucketMembership h = if boundaryHourB h then 2 else 1 := by
  interval_cases h <;> decide

theorem bucketMembership_split (h : ℕ) (hh : h < 24) :
    bucketMembership h = 1 + (if boundaryHourB h then 1 else 0) := by
  interval_cases h <;> decide

theorem bucket_boundary_pairs (h : ℕ) (hh : h < 24) :
    (h = 6 → nightB h ∧ morningB h ∧ ¬afternoonB h ∧ ¬eveningB h) ∧
    (h = 12 → morningB h ∧ afternoonB h ∧ ¬eveningB h ∧ ¬nightB h) ∧
    (h = 18 → afternoonB h ∧ eveningB h ∧ ¬morningB h ∧ ¬nightB h) := by
  interval_cases h <;> decide

/-- C1: the code's `create_features` on a household with exactly one
motion event yields `time_range_hours = 0` but `events_per_hour = +inf`:
the division `motion_count / time_range_hours` is performed with no
special case, and numpy float division of the positive count by `0.0`
produces infinity, not 0. -/
theorem create_features_single_event_div_by_zero (e : MotionEvent) :
    (create_features [e]).time_range_hours = 0 ∧
      (create_features [e]).events_per_hour = NpFloat.posInf := by
  simp [create_features, timeRangeHours, npDivCount, List.max?, List.min?]

/-- C2: each of the four `between` bucket tests of `create_features` is
inclusive at both endpoints, so an event whose hour-of-day is exactly
6, 12 or 18 passes exactly two tests — the adjacent pair
(night/morning at 6, morning/afternoon at 12, afternoon/evening at 18)
— and an event at any other hour passes exactly one. -/
theorem bucket_tests_boundary_double_count (e : MotionEvent) :
    (bucketMembership (hourOfDay e) =
        if boundaryHourB (hourOfDay e) then 2 else 1) ∧
      (hourOfDay e = 6 →
        nightB (hourOfDay e) ∧ morningB (hourOfDay e) ∧
          ¬afternoonB (hourOfDay e) ∧ ¬eveningB (hourOfDay e)) ∧
      (hourOfDay e = 12 →
        morningB (hourOfDay e) ∧ afternoonB (hourOfDay e) ∧
          ¬eveningB (hourOfDay e) ∧ ¬nightB (hourOfDay e)) ∧
      (hourOfDay e = 18 →
        afternoonB (hourOfDay e) ∧ eveningB (hourOfDay e) ∧
          ¬morningB (hourOfDay e) ∧ ¬nightB (hourOfDay e)) := by
  have h24 := hourOfDay_lt_24 e
  exact ⟨bucketMembership_eq _ h24, bucket_boundary_pairs _ h24⟩

theorem bucket_counts_sum (group : List MotionEvent) :
    group.countP (fun e => morningB (hourOfDay e)) +
        group.countP (fun e => afternoonB (hourOfDay e)) +
        group.countP (fun e => eveningB (hourOfDay e)) +
        group.countP (fun e => nightB (hourOfDay e)) =
      group.length + group.countP (fun e => boundaryHourB (hourOfDay e)) := by
  induction group with
  | nil => simp
  | cons e t ih =>
    have hb := bucketMembership_split (hourOfDay e) (hourOfDay_lt_24 e)
    unfold bucketMembership at hb
    simp only [List.countP_cons, List.length_cons]
    omega

/-- C10: over any event group, the four bucket counts of
`create_features` sum to `motion_count` plus the number of events at
boundary hours 6, 12 or 18; in particular the sum is at least
`motion_count`, and every hour-of-day is below 24 (the evening test's
upper endpoint is never attained). -/
theorem create_features_bucket_sum (group : List MotionEvent) :
    (create_features group).morning_activity +
          (create_features group).afternoon_activity +
          (create_features group).evening_activity +
          (create_features group).night_activity =
        (create_features group).motion_count +
          group.countP (fun e => boundaryHourB (hourOfDay e)) ∧
      (create_features group).motion_count ≤
        (create_features group).morning_activity +
          (create_features group).afternoon_activity +
          (create_features group).evening_activity +
          (create_features group).night_activity ∧
      ∀ e ∈ group, hourOfDay e < 24 := by
  refine ⟨bucket_counts_sum group, ?_, fun e _ => hourOfDay_lt_24 e⟩
  have := bucket_counts_sum group
  simp only [create_features] at *
  omega


/-! ## Imbalance correction (SMOTE) -/

/-- Occurrences of label `l` in a label vector. -/
def countLabel (l : ℕ) (y : List ℕ) : ℕ := y.count l

/-- Failure condition of the Imbalance Corrector. -/
inductive SmoteError where
  | insufficientSamples
deriving DecidableEq, Repr

/-- The default neighbour count of the oversampler (`k_neighbors = 5`). -/
def smoteKNeighbors : ℕ := 5

/-- The minority label of a binary label vector (label 0 on ties, where
no resampling is needed). -/
def minorityLabel (y : List ℕ) : ℕ :=
  if countLabel 1 y < countLabel 0 y then 1 else 0

/-- How many synthetic minority rows are needed to balance the classes. -/
def smoteDeficit (y : List ℕ) : ℕ :=
  max (countLabel 0 y) (countLabel 1 y) - min (countLabel 0 y) (countLabel 1 y)

/-- Modelled from the spec: the Imbalance Corrector — the notebook's
`SMOTE(random_state=42).fit_resample(X, y)`, whose implementation lives
in the imblearn library and not in this repository.  Per the spec it
requires at least `k+1` minority samples and fails with an
`InsufficientSamples` condition otherwise; on success it appends
synthetic minority rows (interpolations between a minority sample and a
nearest same-class neighbour — the interpolation and its randomness are
abstracted by the row generator `synth`) after the unchanged original
rows, until both classes have equal counts. -/
def fitResample {α : Type} (synth : ℕ → α) (X : List α) (y : List ℕ) :
    Except SmoteError (List α × List ℕ) :=
  if min (countLabel 0 y) (countLabel 1 y) < smoteKNeighbors + 1 then
    .error .insufficientSamples
  else
    .ok (X ++ (List.range (smoteDeficit y)).map synth,
      y ++ List.replicate (smoteDeficit y) (minorityLabel y))

theorem countLabel_append (l : ℕ) (y z : List ℕ) :
    countLabel l (y ++ z) = countLabel l y + countLabel l z :=
  List.count_append ..

theorem countLabel_replicate (l m d : ℕ) :
    countLabel l (List.replicate d m) = if m = l then d else 0 := by
  induction d with
  | zero => simp [countLabel]
  | succ n ih =>
    simp only [countLabel, List.replicate_succ, List.count_cons] at *
    rw [ih]
    by_cases h : m = l <;> simp [h]

/-- C5: the Imbalance Corrector fails (with `InsufficientSamples`)
exactly when the minority class has fewer than `k + 1` samples;
otherwise it succeeds. -/
theorem fitResample_insufficient_iff {α : Type} (synth : ℕ → α)
    (X : List α) (y : List ℕ) :
    fitResample synth X y = .error .insufficientSamples ↔
      min (countLabel 0 y) (countLabel 1 y) < smoteKNeighbors + 1 := by
  unfold fitResample
  split <;> simp_all

/-- C4: whenever the class counts are unequal and the minority class has
at least `k + 1` samples, the resampled label vector is exactly
balanced: `count(label=0) = count(label=1)`. -/
theorem fitResample_balances {α : Type} (synth : ℕ → α)
    (X : List α) (y : List ℕ)
    (_hne : countLabel 0 y ≠ countLabel 1 y)
    (hk : smoteKNeighbors + 1 ≤ min (countLabel 0 y) (countLabel 1 y)) :
    ∃ X₂ y₂, fitResample synth X y = .ok (X₂, y₂) ∧
      countLabel 0 y₂ = countLabel 1 y₂ := by
  refine ⟨X ++ (List.range (smoteDeficit y)).map synth,
    y ++ List.replicate (smoteDeficit y) (minorityLabel y), ?_, ?_⟩
  · unfold fitResample
    rw [if_neg (by omega)]
  · rw [countLabel_append, countLabel_append, countLabel_replicate,
      countLabel_replicate]
    unfold minorityLabel smoteDeficit
    by_cases h : countLabel 1 y < countLabel 0 y <;> simp [h] <;> omega

/-- C4 witness: a concrete 7-vs-6 labelled set is rebalanced to equal
class counts. -/
theorem fitResample_balances_ok :
    ∃ X₂ y₂,
      fitResample (fun _ => 99) (List.range 13)
          (List.replicate 7 0 ++ List.replicate 6 1) = .ok (X₂, y₂) ∧
        countLabel 0 y₂ = countLabel 1 y₂ :=
  fitResample_balances (fun _ => 99) (List.range 13)
    (List.replicate 7 0 ++ List.replicate 6 1) (by decide) (by decide)

/-- C8: on success the Imbalance Corrector preserves every original row
unchanged and in place — the outputs extend the original feature matrix
and label vector, with the synthetic minority rows appended strictly
after them. -/
theorem fitResample_preserves_originals {α : Type} (synth : ℕ → α)
    (X : List α) (y : List ℕ) (X₂ : List α) (y₂ : List ℕ)
    (hok : fitResample synth X y = .ok (X₂, y₂)) :
    X₂.take X.length = X ∧ y₂.take y.length = y ∧
      X₂ = X ++ (List.range (smoteDeficit y)).map synth ∧
      y₂ = y ++ List.replicate (smoteDeficit y) (minorityLabel y) := by
  unfold fitResample at hok
  split at hok
  · exact absurd hok (by simp)
  · rw [Except.ok.injEq, Prod.mk.injEq] at hok
    obtain ⟨hX, hy⟩ := hok
    subst hX hy
    exact ⟨by simp, by simp, rfl, rfl⟩

/-- C8 witness: on a concrete 7-vs-6 labelled set the output begins with
the unchanged originals and appends one synthetic minority row. -/
theorem fitResample_preserves_originals_ok :
    (List.range 13 ++ [99]).take (List.range 13).length = List.range 13 ∧
      ((List.replicate 7 0 ++ List.replicate 6 1) ++ [1]).take
          (List.replicate 7 0 ++ List.replicate 6 1 : List ℕ).length =
        List.replicate 7 0 ++ List.replicate 6 1 ∧
      List.range 13 ++ [99] =
        List.range 13 ++
          (List.range (smoteDeficit (List.replicate 7 0 ++ List.replicate 6 1))).map
            (fun _ => 99) ∧
      (List.replicate 7 0 ++ List.replicate 6 1) ++ [1] =
        (List.replicate 7 0 ++ List.replicate 6 1) ++
          List.replicate (smoteDeficit (List.replicate 7 0 ++ List.replicate 6 1))
            (minorityLabel (List.replicate 7 0 ++ List.replicate 6 1)) :=
  fitResample_preserves_originals (fun _ => 99) (List.range 13)
    (List.replicate 7 0 ++ List.replicate 6 1)
    (List.range 13 ++ [99])
    ((List.replicate 7 0 ++ List.replicate 6 1) ++ [1]) rfl

/-! ## Train/test split -/

/-- `ceil(0.2 * n)`: size of the test partition for `test_size=0.2`. -/
def nTestSize (n : ℕ) : ℕ := (n + 4) / 5

/-- `floor(0.8 * n)`: size of the train partition. -/
def nTrainSize (n : ℕ) : ℕ := 4 * n / 5

/-- Modelled from the spec: the notebook's
`train_test_split(X_resampled, y_resampled, test_size=0.2, random_state=42)`.
No `stratify` argument is passed, so the sklearn call shuffles the row
indices with the seeded generator and cuts the shuffled order — the
seed-determined shuffled index order is the parameter `perm` (a
permutation of `range n`).  The test rows are the first `ceil(0.2 n)`
shuffled indices. -/
def testIdx (perm : List ℕ) (n : ℕ) : List ℕ :=
  perm.take (nTestSize n)

/-- The train rows: the next `floor(0.8 n)` shuffled indices. -/
def trainIdx (perm : List ℕ) (n : ℕ) : List ℕ :=
  (perm.drop (nTestSize n)).take (nTrainSize n)

/-- Labels carried into the test partition (rows are gathered by the
same index list, so labels stand in for whole samples). -/
def testLabels (perm : List ℕ) (y : List ℕ) : List ℕ :=
  (testIdx perm y.length).map fun i => y.getD i 0

/-- Labels carried into the train partition. -/
def trainLabels (perm : List ℕ) (y : List ℕ) : List ℕ :=
  (trainIdx perm y.length).map fun i => y.getD i 0

/-- A label vector is balanced when the two classes have equal counts. -/
def balancedB (y : List ℕ) : Bool :=
  countLabel 0 y == countLabel 1 y

/-- C3 counterexample: the stratification claim is false — on the
balanced 4-sample input `[0,0,1,1]` the partitions do not retain the
label balance.  The second conjunct shows this does not depend on which
shuffle order the seed produces: for EVERY permutation of the four row
indices the 1-row test partition is unbalanced. -/
theorem split_not_stratified_cex :
    (¬ ∀ (p y : List ℕ), p.Perm (List.range y.length) → balancedB y = true →
        balancedB (testLabels p y) = true ∧
          balancedB (trainLabels p y) = true) ∧
      ∀ p : List ℕ, p.Perm (List.range 4) →
        balancedB (testLabels p [0, 0, 1, 1]) = false := by
  constructor
  · intro h
    have h2 := h [0, 1, 2, 3] [0, 0, 1, 1] (List.Perm.refl _) (by decide)
    revert h2
    decide
  · intro p hp
    have hlen : p.length = 4 := by simpa using hp.length_eq
    rcases p with _ | ⟨p0, rest⟩
    · simp at hlen
    · rcases p0 with _ | _ | _ | _ | n <;>
        simp [testLabels, testIdx, nTestSize, balancedB, countLabel,
          List.getElem?_eq_none]

/-- C3 (amended): the split is an unstratified seeded shuffle split —
for any seed-determined shuffle order the partitions have the fixed
sizes `ceil(0.2 n)` and `floor(0.8 n)`, and the index selection is a
function of the seed order and the sample count alone, identical for
any two label vectors of the same length (labels are never consulted). -/
theorem split_sizes_and_label_independence (p : List ℕ) (y y₂ : List ℕ)
    (hp : p.Perm (List.range y.length)) (hlen : y₂.length = y.length) :
    (testLabels p y).length = nTestSize y.length ∧
      (trainLabels p y).length = nTrainSize y.length ∧
      testIdx p y.length = testIdx p y₂.length ∧
      trainIdx p y.length = trainIdx p y₂.length := by
  have hl : p.length = y.length := by
    simpa using hp.length_eq
  refine ⟨?_, ?_, by rw [hlen], by rw [hlen]⟩
  · simp only [testLabels, testIdx, List.length_map, List.length_take, hl,
      nTestSize]
    omega
  · simp only [trainLabels, trainIdx, List.length_map, List.length_take,
      List.length_drop, hl, nTestSize, nTrainSize]
    omega

/-- C3 amended-claim witness at a concrete shuffle order and two
concrete label vectors of length 4. -/
theorem split_sizes_and_label_independence_ok :
    (testLabels [2, 0, 3, 1] [0, 1, 1, 0]).length =
        nTestSize ([0, 1, 1, 0] : List ℕ).length ∧
      (trainLabels [2, 0, 3, 1] [0, 1, 1, 0]).length =
        nTrainSize ([0, 1, 1, 0] : List ℕ).length ∧
      testIdx [2, 0, 3, 1] ([0, 1, 1, 0] : List ℕ).length =
        testIdx [2, 0, 3, 1] ([1, 1, 1, 1] : List ℕ).length ∧
      trainIdx [2, 0, 3, 1] ([0, 1, 1, 0] : List ℕ).length =
        trainIdx [2, 0, 3, 1] ([1, 1, 1, 1] : List ℕ).length :=
  split_sizes_and_label_independence [2, 0, 3, 1] [0, 1, 1, 0] [1, 1, 1, 1]
    (by decide) (by decide)

/-! ## Feature scaling -/

/-- Mean of one feature column. -/
def colMean (c : List ℚ) : ℚ := c.sum / c.length

/-- Population variance (`ddof = 0`, as `StandardScaler` uses) of one
feature column. -/
def colVar (c : List ℚ) : ℚ :=
  (c.map fun x => (x - colMean c) ^ 2).sum / c.length

/-- The state a fitted `StandardScaler` stores: per-feature `mean_` and
`var_`. -/
structure ScalerParams where
  means : List ℚ
  variances : List ℚ
deriving DecidableEq, Repr

/-- `StandardScaler.fit`: per-feature mean and variance of the columns
of the matrix the scaler is fitted on. -/
def fitScaler (X : List (List ℚ)) : ScalerParams :=
  ⟨X.transpose.map colMean, X.transpose.map colVar⟩

/-- `StandardScaler.transform`: columnwise `(x - mean) / sqrt(var)`.
The numeric square root is abstracted by `sqrtFn`, since the claims
concern which data the fitted parameters derive from, not float
arithmetic. -/
def scalerTransform (sqrtFn : ℚ → ℚ) (p : ScalerParams)
    (X : List (List ℚ)) : List (List ℚ) :=
  X.map fun row =>
    (row.zip (p.means.zip p.variances)).map fun xmv =>
      (xmv.1 - xmv.2.1) / sqrtFn xmv.2.2

/-- Cell 11 of the notebook: `scaler.fit_transform(X_train)` then
`scaler.transform(X_test)` — the scaler is fitted on the train matrix
only, and the same fitted parameters transform the test matrix. -/
def splitScale (sqrtFn : ℚ → ℚ) (Xtr Xte : List (List ℚ)) :
    ScalerParams × List (List ℚ) × List (List ℚ) :=
  (fitScaler Xtr, scalerTransform sqrtFn (fitScaler Xtr) Xtr,
    scalerTransform sqrtFn (fitScaler Xtr) Xte)

/-- C6: the fitted scale parameters are a function of the train matrix
only — two runs sharing a train matrix but differing in test matrices
fit identical parameters (and identical scaled train output), and the
test transform applies exactly those train-fitted parameters. -/
theorem scaler_fit_on_train_only (sqrtFn : ℚ → ℚ)
    (Xtr Xte Xte₂ : List (List ℚ)) :
    (splitScale sqrtFn Xtr Xte).1 = (splitScale sqrtFn Xtr Xte₂).1 ∧
      (splitScale sqrtFn Xtr Xte).2.1 = (splitScale sqrtFn Xtr Xte₂).2.1 ∧
      (splitScale sqrtFn Xtr Xte).1 = fitScaler Xtr ∧
      (splitScale sqrtFn Xtr Xte).2.2 =
        scalerTransform sqrtFn (fitScaler Xtr) Xte :=
  ⟨rfl, rfl, rfl, rfl⟩

/-! ## Hyperparameter search -/

/-- One random-forest hyperparameter configuration (`max_depth = none`
is sklearn's "unbounded"). -/
structure RFConfig where
  n_estimators : ℕ
  max_depth : Option ℕ
  min_samples_split : ℕ
  min_samples_leaf : ℕ
deriving DecidableEq, Repr

/-- Cell 13: `param_grid['n_estimators'] = [100, 200, 300]`. -/
def param_grid_n_estimators : List ℕ := [100, 200, 300]

/-- Cell 13: `param_grid['max_depth'] = [None, 10, 20, 30]`. -/
def param_grid_max_depth : List (Option ℕ) := [none, some 10, some 20, some 30]

/-- Cell 13: `param_grid['min_samples_split'] = [2, 5, 10]`. -/
def param_grid_min_samples_split : List ℕ := [2, 5, 10]

/-- Cell 13: `param_grid['min_samples_leaf'] = [1, 2, 4]`. -/
def param_grid_min_samples_leaf : List ℕ := [1, 2, 4]

/-- The full enumerated grid (the cartesian product of the four lists,
108 configurations). -/
def paramGrid : List RFConfig :=
  param_grid_n_estimators.flatMap fun ne =>
    param_grid_max_depth.flatMap fun md =>
      param_grid_min_samples_split.flatMap fun ms =>
        param_grid_min_samples_leaf.map fun ml => ⟨ne, md, ms, ml⟩

/-- `n_iter=20`: how many candidate configurations the search scores. -/
def nIterRS : ℕ := 20

/-- The candidate list drawn from the grid; the seed-determined choice
of which grid points are drawn is abstracted by `sampler`. -/
def sampledCandidates (sampler : Fin nIterRS → Fin paramGrid.length) :
    List RFConfig :=
  (List.finRange nIterRS).map fun i => paramGrid.get (sampler i)

/-- Best-scoring candidate, first-found winning ties (replacement only
on strict improvement). -/
def pickBest (score : RFConfig → ℚ) : List RFConfig → Option RFConfig
  | [] => none
  | c :: rest =>
    some (rest.foldl (fun b x => if score b < score x then x else b) c)

/-- The state `best_estimator_` carries: a model refitted on the full
training set with the winning configuration. -/
structure FittedModel where
  train : List (List ℚ) × List ℕ
  config : RFConfig
deriving DecidableEq, Repr

/-- Modelled from the spec: cell 14's
`RandomizedSearchCV(rf, param_distributions=param_grid, n_iter=20, cv=5,
random_state=42).fit(X_train_scaled, y_train)` and cell 16's
`best_estimator_` — the search internals live in sklearn, not in this
repository.  Each sampled grid configuration is scored by 5-fold
cross-validation (abstracted by `score`); the best mean score wins,
first-found on ties; `refit=True` refits the winner on the full
training set. -/
def randomSearchFit (sampler : Fin nIterRS → Fin paramGrid.length)
    (score : RFConfig → ℚ) (Xtr : List (List ℚ)) (ytr : List ℕ) :
    Option (FittedModel × RFConfig) :=
  match pickBest score (sampledCandidates sampler) with
  | none => none
  | some c => some (⟨(Xtr, ytr), c⟩, c)

theorem foldl_best_mem (score : RFConfig → ℚ) (rest : List RFConfig)
    (c : RFConfig) :
    rest.foldl (fun b x => if score b < score x then x else b) c ∈
      c :: rest := by
  induction rest generalizing c with
  | nil => simp
  | cons x t ih =>
    simp only [List.foldl_cons]
    rcases List.mem_cons.mp (ih (if score c < score x then x else c)) with
      h1 | h1
    · rw [h1]
      split <;> simp
    · simp [List.mem_cons, h1]

theorem sampledCandidates_subset
    (sampler : Fin nIterRS → Fin paramGrid.length) (c : RFConfig)
    (hc : c ∈ sampledCandidates sampler) : c ∈ paramGrid := by
  obtain ⟨i, _, hi⟩ := List.mem_map.mp hc
  exact hi ▸ List.get_mem paramGrid (sampler i).1 (sampler i).2

/-- C7: whatever grid points the seed draws and whatever their
cross-validated scores, the search returns a winning configuration that
is a member of the enumerated grid, and the returned model is the one
fitted on the full training set with exactly that configuration. -/
theorem randomSearch_winner_in_grid
    (sampler : Fin nIterRS → Fin paramGrid.length) (score : RFConfig → ℚ)
    (Xtr : List (List ℚ)) (ytr : List ℕ) :
    ∃ m c, randomSearchFit sampler score Xtr ytr = some (m, c) ∧
      c ∈ paramGrid ∧ m.config = c ∧ m.train = (Xtr, ytr) := by
  obtain ⟨c0, rest, hS⟩ : ∃ c0 rest, sampledCandidates sampler = c0 :: rest := by
    cases hS : sampledCandidates sampler with
    | nil =>
      have hlen : (sampledCandidates sampler).length = nIterRS := by
        simp [sampledCandidates]
      rw [hS] at hlen
      simp [nIterRS] at hlen
    | cons a t => exact ⟨a, t, rfl⟩
  refine ⟨⟨(Xtr, ytr),
    rest.foldl (fun b x => if score b < score x then x else b) c0⟩, _,
    ?_, ?_, rfl, rfl⟩
  · unfold randomSearchFit
    rw [hS]
    rfl
  · exact sampledCandidates_subset sampler _
      (hS ▸ foldl_best_mem score rest c0)

/-! ## Pipeline assembly and abort behaviour -/

/-- A row of the `homes` table: `(id, multiple_occupancy)`. -/
structure Household where
  id : ℕ
  multiple_occupancy : ℕ
deriving DecidableEq, Repr

/-- The all-zero feature row produced by `fillna(0)` for a household
with no motion events. -/
def zeroRow : FeatureRow :=
  ⟨0, 0, 0, 0, .finite 0, 0, 0, 0, 0⟩

/-- The `groupby('home_id')` group of one household. -/
def eventsOf (h : ℕ) (events : List MotionEvent) : List MotionEvent :=
  events.filter fun e => e.home_id == h

/-- Dataset Assembler, cells 7 and 9:
`homes_df.merge(motion_features, left_on='id', right_on='home_id',
how='left')` then `fillna(0)` — a left join keeps one row per
household, a household with no events getting the all-zero feature row,
and the label vector is the `multiple_occupancy` column. -/
def assembleDataset (homes : List Household) (events : List MotionEvent) :
    List FeatureRow × List ℕ :=
  (homes.map fun hh =>
      if (eventsOf hh.id events).isEmpty then zeroRow
      else create_features (eventsOf hh.id events),
    homes.map (·.multiple_occupancy))

/-- The stages of the notebook pipeline, in cell order. -/
inductive Stage where
  | assemble
  | imbalanceCorrect
  | splitStage
  | scale
  | fitModel
deriving DecidableEq, Repr

/-- The notebook's cells run strictly in order and an exception raised
in one cell stops all later cells.  `pipelineTrace` records which stages
start and the error, if any.  The assembler (cells 7–9) is total; the
SMOTE call at the top of cell 11 is the first fallible stage and runs
before the split, the scaler, and the model fit — the notebook contains
no emptiness check anywhere before it. -/
def pipelineTrace (synth : ℕ → FeatureRow) (homes : List Household)
    (events : List MotionEvent) : List Stage × Option SmoteError :=
  match fitResample synth (assembleDataset homes events).1
      (assembleDataset homes events).2 with
  | .error e => ([.assemble, .imbalanceCorrect], some e)
  | .ok _ => ([.assemble, .imbalanceCorrect, .splitStage, .scale, .fitModel],
      none)

/-- C9 counterexample: on the empty dataset the pipeline does not abort
before the imbalance-correction step — that step is entered (and is
where the failure, the oversampler's rejection of the degenerate input,
occurs); no dedicated `EmptyDataset` abort precedes it. -/
theorem empty_dataset_reaches_corrector :
    Stage.imbalanceCorrect ∈ (pipelineTrace (fun _ => zeroRow) [] []).1 ∧
      (pipelineTrace (fun _ => zeroRow) [] []).2 =
        some .insufficientSamples := by
  decide

/-- C9 (amended): with no households (hence no labels), the pipeline
aborts with the error raised inside the imbalance-correction step — the
oversampler rejects the empty input — so the split, scaling and model
fitting never start; there is no earlier `EmptyDataset` check. -/
theorem empty_dataset_aborts_at_corrector (synth : ℕ → FeatureRow)
    (events : List MotionEvent) (homes : List Household)
    (hempty : homes = []) :
    (pipelineTrace synth homes events).1 =
        [Stage.assemble, Stage.imbalanceCorrect] ∧
      (pipelineTrace synth homes events).2 =
        some .insufficientSamples ∧
      Stage.splitStage ∉ (pipelineTrace synth homes events).1 ∧
      Stage.fitModel ∉ (pipelineTrace synth homes events).1 := by
  subst hempty
  have hres : fitResample synth (assembleDataset [] events).1
      (assembleDataset [] events).2 = .error .insufficientSamples := by
    simp [assembleDataset, fitResample, countLabel, smoteKNeighbors]
  refine ⟨?_, ?_, ?_, ?_⟩ <;> simp [pipelineTrace, hres]

/-- C9 amended-claim witness: the empty concrete input. -/
theorem empty_dataset_aborts_at_corrector_ok :
    (pipelineTrace (fun _ => zeroRow) [] []).1 =
        [Stage.assemble, Stage.imbalanceCorrect] ∧
      (pipelineTrace (fun _ => zeroRow) [] []).2 =
        some .insufficientSamples ∧
      Stage.splitStage ∉ (pipelineTrace (fun _ => zeroRow) [] []).1 ∧
      Stage.fitModel ∉ (pipelineTrace (fun _ => zeroRow) [] []).1 :=
  empty_dataset_aborts_at_corrector (fun _ => zeroRow) [] [] rfl
